import Mathlib

/-!
Verification of the waybar todo script core logic.

Shallow embedding of `src/todo-scripts/todo.py`: the task data model,
sorting/filtering, the time-based display rotation, the mutation
operations, and the state store with corruption recovery.

Python dictionaries with optional keys are modelled as structures of
`Option`-typed fields (`t.get(k)` becomes the field itself, `t.get(k, d)`
becomes `Option.getD _ d`).  Python strings are sequences of code points
compared lexicographically, modelled as `List Char` (written `Str`).
Wall-clock time is an explicit `Nat` parameter (seconds).
Nondeterministic inputs (`uuid4`, `datetime.now`) are explicit
parameters.  The filesystem is a map from path strings to file contents.
-/

namespace WaybarTodo

/-- A Python string: a sequence of code points, ordered lexicographically
(Mathlib's `List.Lex` linear order on `List Char` matches Python's
string comparison). -/
abbrev Str : Type := List Char

/-- Python `str.strip()`: remove leading and trailing whitespace. -/
def pyStrip (s : Str) : Str :=
  ((s.dropWhile Char.isWhitespace).reverse.dropWhile Char.isWhitespace).reverse

/-- A task record: a Python dict with the keys `id`, `title`, `priority`,
`done`, `created`, each possibly absent. -/
structure Task where
  id : Option Str
  title : Option Str
  priority : Option Int
  done : Option Bool
  created : Option Str
deriving DecidableEq, Repr

/-- The persisted state: `tasks` and `show_index` (both present after
`load_state`'s `setdefault` calls). -/
structure State where
  tasks : List Task
  show_index : Int
deriving DecidableEq, Repr

/-- The constant `ROTATION_INTERVAL = 2`, seconds per task display. -/
def ROTATION_INTERVAL : Nat := 2

/-- The sort key of `sorted_tasks`: the lexicographic tuple
`(t.get("priority", 3), t.get("created", ""), t.get("title", ""))`. -/
def sortKey (t : Task) : Int ×ₗ (Str ×ₗ Str) :=
  toLex (t.priority.getD 3, toLex (t.created.getD [], t.title.getD []))

/-- The comparison used by `sorted_tasks`: ascending lexicographic order
on the key tuple, exactly Python's tuple comparison. -/
def taskLE (a b : Task) : Prop := sortKey a ≤ sortKey b

instance : DecidableRel taskLE := fun a b =>
  inferInstanceAs (Decidable (sortKey a ≤ sortKey b))

instance : IsTotal Task taskLE := ⟨fun a b => le_total (sortKey a) (sortKey b)⟩

instance : IsTrans Task taskLE := ⟨fun _ _ _ h₁ h₂ => le_trans h₁ h₂⟩

/-- The function `sorted_tasks`: Python's stable `sorted` with key
`(priority, created, title)`, modelled by the stable insertion sort. -/
def sorted_tasks (tasks : List Task) : List Task :=
  tasks.insertionSort taskLE

/-- The function `pending_tasks`: the tasks `t` with `not t.get("done")`. -/
def pending_tasks (state : State) : List Task :=
  state.tasks.filter (fun t => !(t.done.getD false))

/-- The function `next_display_pool`: the sorted pending tasks if nonempty, else the
full sorted task collection. -/
def next_display_pool (state : State) : List Task :=
  let pool := sorted_tasks (pending_tasks state)
  if pool.isEmpty then sorted_tasks state.tasks else pool

/-- The function `get_display_task`: rotates through the sorted *pending* tasks by
time; index `int(time.time() / ROTATION_INTERVAL) % len(pool)`. -/
def get_display_task (state : State) (now : Nat) : Option Task :=
  let pool := sorted_tasks (pending_tasks state)
  if h : pool.length = 0 then none
  else some (pool.get ⟨(now / ROTATION_INTERVAL) % pool.length,
    Nat.mod_lt _ (Nat.pos_of_ne_zero h)⟩)

/-- The task list part of `toggle_task`: flip `done` on the first task
whose `id` matches, leave everything else unchanged; report whether a
match was found. -/
def toggleList (task_id : Str) : List Task → Bool × List Task
  | [] => (false, [])
  | t :: ts =>
    if t.id = some task_id then
      (true, { t with done := some (!(t.done.getD false)) } :: ts)
    else
      let r := toggleList task_id ts
      (r.1, t :: r.2)

/-- The function `toggle_task(state, task_id)`: returns the changed flag and the
updated state. -/
def toggle_task (state : State) (task_id : Str) : Bool × State :=
  let r := toggleList task_id state.tasks
  (r.1, { state with tasks := r.2 })

/-- The function `add_task(state, title, priority)`: appends a fresh task with the
stripped title, clamped priority `max(1, min(priority, 5))`,
`done=False`.  The generated id (`uuid4().hex[:10]`) and creation
timestamp (`datetime.now().isoformat()`) are explicit parameters. -/
def add_task (state : State) (title : Str) (priority : Int)
    (newId created : Str) : State :=
  { state with tasks := state.tasks ++
      [⟨some newId, some (pyStrip title), some (max 1 (min priority 5)),
        some false, some created⟩] }

/-- The function `clear_completed(state)`: keeps the tasks `t` with
`not t.get("done")`. -/
def clear_completed (state : State) : State :=
  { state with tasks := state.tasks.filter (fun t => !(t.done.getD false)) }

/-! The state store (`load_state` / `save_state`).

File contents are modelled by what `json.loads` plus the
`isinstance(raw, dict)` check make of them: unparseable text, a parsed
non-dict value, or a parsed dict whose `tasks` / `show_index` entries may
be absent.  The filesystem is a map from path names to contents. -/

/-- The content of a file, as seen by `load_state`'s parsing step. -/
inductive Raw where
  /-- text on which `json.loads` raises -/
  | malformed : Raw
  /-- a parsed value that is not a dict (`isinstance` check fails) -/
  | nonDict : Raw
  /-- a parsed dict; `tasks` and `show_index` may be absent -/
  | dict : Option (List Task) → Option Int → Raw
deriving DecidableEq, Repr

/-- A filesystem: a map from path names to file contents. -/
def FileSys : Type := Str → Option Raw

/-- Reading a file (`none` = the file does not exist). -/
def FileSys.read (fs : FileSys) (p : Str) : Option Raw := fs p

/-- Writing a file (creating or overwriting it). -/
def FileSys.write (fs : FileSys) (p : Str) (c : Raw) : FileSys :=
  fun q => if q = p then some c else fs q

/-- Python's `Path.rename` / `Path.replace`: move `src` over `dst`. -/
def FileSys.rename (fs : FileSys) (src dst : Str) : FileSys :=
  fun q => if q = dst then fs src else if q = src then none else fs q

/-- The stem of `DATA_FILE` (`tasks.json`). -/
def DATA_STEM : Str := "tasks".toList

/-- The suffix of `DATA_FILE` (`DATA_FILE.suffix`). -/
def DATA_SUFFIX : Str := ".json".toList

/-- Python's `Path.with_suffix`: replace the suffix of the path. -/
def with_suffix (stem suffix : Str) : Str := stem ++ suffix

/-- The path `DATA_FILE = DATA_DIR / "tasks.json"`. -/
def DATA_FILE : Str := with_suffix DATA_STEM DATA_SUFFIX

/-- The corrupt-file backup path
`DATA_FILE.with_suffix(DATA_FILE.suffix + ".bak")`. -/
def BACKUP_FILE : Str := with_suffix DATA_STEM (DATA_SUFFIX ++ ".bak".toList)

/-- The temporary file `DATA_FILE.with_suffix(".tmp")` used by
`save_state`. -/
def TMP_FILE : Str := with_suffix DATA_STEM ".tmp".toList

/-- The `json.dump` of a state dict: a dict with both fields present. -/
def serializeState (st : State) : Raw :=
  Raw.dict (some st.tasks) (some st.show_index)

/-- The function `save_state`: write the state to `tasks.tmp`, then atomically rename
it over `DATA_FILE`. -/
def save_state (fs : FileSys) (st : State) : FileSys :=
  (fs.write TMP_FILE (serializeState st)).rename TMP_FILE DATA_FILE

/-- The parsing step of `load_state`: `json.loads`, the
`isinstance(raw, dict)` check, and the two `setdefault` calls.  `none`
means the `except` branch is taken. -/
def parseState : Raw → Option State
  | .malformed => none
  | .nonDict => none
  | .dict t s => some ⟨t.getD [], s.getD 0⟩

/-- The list `DEFAULT_TASKS`: the two seed tasks.  The two
`datetime.now().isoformat()` timestamps are explicit parameters. -/
def DEFAULT_TASKS (now₁ now₂ : Str) : List Task :=
  [⟨some "seed-quickstart".toList, some "Part 6".toList, some 1,
    some false, some now₁⟩,
   ⟨some "seed-manage".toList, some "Right click to edit or add".toList,
    some 3, some false, some now₂⟩]

/-- The default state `{"tasks": DEFAULT_TASKS, "show_index": 0}`. -/
def defaultState (now₁ now₂ : Str) : State := ⟨DEFAULT_TASKS now₁ now₂, 0⟩

/-- The function `load_state`: return the parsed file if it exists and parses; create,
persist and return the default state if the file is missing; on a parse
failure or a non-dict value, rename the corrupt file to `BACKUP_FILE`
and fall back to the default-state path. -/
def load_state (now₁ now₂ : Str) (fs : FileSys) : State × FileSys :=
  match fs.read DATA_FILE with
  | none =>
      let st := defaultState now₁ now₂
      (st, save_state fs st)
  | some raw =>
      match parseState raw with
      | some st => (st, fs)
      | none =>
          let fs' := fs.rename DATA_FILE BACKUP_FILE
          let st := defaultState now₁ now₂
          (st, save_state fs' st)

/-! Concrete example values used by witnesses and counterexamples. -/

/-- A completed task. -/
def tDoneA : Task :=
  ⟨some "a".toList, some "alpha".toList, some 1, some true,
   some "2024-01-01".toList⟩

/-- A pending task of priority 3. -/
def tPendB : Task :=
  ⟨some "b".toList, some "beta".toList, some 3, some false,
   some "2024-01-02".toList⟩

/-- A pending task of priority 1 (its `done` key is absent). -/
def tPendC : Task :=
  ⟨some "c".toList, some "gamma".toList, some 1, none,
   some "2024-01-03".toList⟩

/-- A nonempty state in which every task is done. -/
def stAllDone : State := ⟨[tDoneA], 0⟩

/-- A state with one done and two pending tasks. -/
def stMixed : State := ⟨[tDoneA, tPendB, tPendC], 0⟩

/-- A filesystem whose data file holds unparseable text. -/
def fsCorrupt : FileSys :=
  fun p => if p = DATA_FILE then some Raw.malformed else none

/-! Helper lemmas. -/

theorem sorted_tasks_perm (l : List Task) : List.Perm (sorted_tasks l) l :=
  List.perm_insertionSort taskLE l

theorem sorted_tasks_eq_nil_iff (l : List Task) :
    sorted_tasks l = [] ↔ l = [] := by
  constructor
  · intro h
    have hp := sorted_tasks_perm l
    rw [h] at hp
    exact hp.symm.eq_nil
  · rintro rfl
    rfl

theorem mem_sorted_tasks {l : List Task} {x : Task} :
    x ∈ sorted_tasks l ↔ x ∈ l :=
  List.mem_insertionSort taskLE

theorem toggleList_eq_of_no_match (i : Str) (ts : List Task)
    (h : ∀ t ∈ ts, t.id ≠ some i) : toggleList i ts = (false, ts) := by
  induction ts with
  | nil => rfl
  | cons t ts ih =>
    rw [toggleList, if_neg (h t (.head _))]
    simp [ih (fun u hu => h u (.tail _ hu))]

theorem toggleList_first_match (i : Str) (pre : List Task) (t : Task)
    (post : List Task) (hpre : ∀ u ∈ pre, u.id ≠ some i)
    (hid : t.id = some i) :
    toggleList i (pre ++ t :: post) =
      (true, pre ++ { t with done := some (!(t.done.getD false)) } :: post) := by
  induction pre with
  | nil => simp [toggleList, hid]
  | cons u pre ih =>
    simp only [List.cons_append, toggleList]
    rw [if_neg (hpre u (.head _))]
    simp only [List.append_eq]
    rw [ih (fun v hv => hpre v (.tail _ hv))]

theorem toggleList_fst_true_iff (i : Str) (ts : List Task) :
    (toggleList i ts).1 = true ↔ ∃ t ∈ ts, t.id = some i := by
  induction ts with
  | nil => simp [toggleList]
  | cons t ts ih =>
    by_cases h : t.id = some i
    · simp [toggleList, h]
    · simp [toggleList, h, ih]

theorem toggleList_snd_of_fst_false (i : Str) (ts : List Task)
    (h : (toggleList i ts).1 = false) : (toggleList i ts).2 = ts := by
  have hno : ∀ t ∈ ts, t.id ≠ some i := by
    intro t ht hid
    have := (toggleList_fst_true_iff i ts).mpr ⟨t, ht, hid⟩
    rw [this] at h
    exact Bool.true_eq_false.mp h
  rw [toggleList_eq_of_no_match i ts hno]

theorem get_display_task_eq_none_iff (s : State) (t : Nat) :
    get_display_task s t = none ↔ pending_tasks s = [] := by
  have hlen : (sorted_tasks (pending_tasks s)).length = 0 ↔ pending_tasks s = [] := by
    rw [List.length_eq_zero, sorted_tasks_eq_nil_iff]
  by_cases h : (sorted_tasks (pending_tasks s)).length = 0
  · simp only [get_display_task]
    rw [dif_pos h]
    simp [hlen.mp h]
  · simp only [get_display_task]
    rw [dif_neg h]
    simp only [Option.some_ne_none, false_iff]
    exact fun hh => h (hlen.mpr hh)

theorem get_display_task_eq_getElem (s : State) (t : Nat)
    (h : (sorted_tasks (pending_tasks s)).length ≠ 0) :
    get_display_task s t =
      (sorted_tasks (pending_tasks s))[(t / ROTATION_INTERVAL) %
        (sorted_tasks (pending_tasks s)).length]? := by
  simp only [get_display_task]
  rw [dif_neg h,
    List.getElem?_eq_getElem (Nat.mod_lt _ (Nat.pos_of_ne_zero h))]
  rfl

/-! Claim theorems. -/

/-- C3: `displayPool` (`next_display_pool`) equals the sorted pending
tasks when that list is nonempty, otherwise the full sorted collection;
it is empty iff the full task collection is empty. -/
theorem C3_display_pool_fallback (s : State) :
    (pending_tasks s ≠ [] → next_display_pool s = sorted_tasks (pending_tasks s)) ∧
    (pending_tasks s = [] → next_display_pool s = sorted_tasks s.tasks) ∧
    (next_display_pool s = [] ↔ s.tasks = []) := by
  have hpend : ∀ h : pending_tasks s ≠ [],
      next_display_pool s = sorted_tasks (pending_tasks s) := by
    intro h
    have hpool : ¬(sorted_tasks (pending_tasks s)).isEmpty = true := by
      rw [List.isEmpty_iff]
      exact fun hh => h ((sorted_tasks_eq_nil_iff _).mp hh)
    simp [next_display_pool, hpool]
  have hfall : ∀ _ : pending_tasks s = [],
      next_display_pool s = sorted_tasks s.tasks := by
    intro h
    have hpool : sorted_tasks (pending_tasks s) = [] := by
      rw [h]
      rfl
    simp [next_display_pool, hpool]
  refine ⟨hpend, hfall, ?_⟩
  by_cases hp : pending_tasks s = []
  · rw [hfall hp, sorted_tasks_eq_nil_iff]
  · rw [hpend hp, sorted_tasks_eq_nil_iff]
    constructor
    · exact fun hh => absurd hh hp
    · intro hh
      have : pending_tasks s = [] := by
        simp [pending_tasks, hh]
      exact absurd this hp

/-- C3 witness: on a concrete state with a pending task, the pool is the
sorted pending tasks, and on a concrete all-done state it falls back to
the full sorted collection. -/
theorem C3_display_pool_fallback_witness :
    next_display_pool stMixed = sorted_tasks (pending_tasks stMixed) ∧
    next_display_pool stAllDone = sorted_tasks stAllDone.tasks :=
  ⟨(C3_display_pool_fallback stMixed).1 (by decide),
   (C3_display_pool_fallback stAllDone).2.1 (by decide)⟩

/-- C4: `sorted_tasks` sorts ascending by the lexicographic key
`(priority, created, title)` (the order `taskLE`), is a permutation of
its input, and is idempotent: an already-sorted list is returned
unchanged. -/
theorem C4_sorted_tasks_order (l : List Task) :
    List.Sorted taskLE (sorted_tasks l) ∧
    List.Perm (sorted_tasks l) l ∧
    sorted_tasks (sorted_tasks l) = sorted_tasks l ∧
    (List.Sorted taskLE l → sorted_tasks l = l) :=
  ⟨List.sorted_insertionSort taskLE l, sorted_tasks_perm l,
   List.Sorted.insertionSort_eq (List.sorted_insertionSort taskLE l),
   fun h => List.Sorted.insertionSort_eq h⟩

/-- C4 witness: sorting a concrete already-sorted list returns it
unchanged. -/
theorem C4_sorted_tasks_order_witness :
    sorted_tasks [tPendC, tPendB] = [tPendC, tPendB] :=
  (C4_sorted_tasks_order [tPendC, tPendB]).2.2.2 (by decide)

/-- C7: `toggle_task` reports true iff a task with the given id exists;
on a miss the state is unchanged; on a hit the first matching task has
its `done` flag flipped and every other task is untouched. -/
theorem C7_toggle_task_spec (s : State) (i : Str) :
    ((toggle_task s i).1 = true ↔ ∃ t ∈ s.tasks, t.id = some i) ∧
    ((toggle_task s i).1 = false → toggle_task s i = (false, s)) ∧
    (∀ pre t post, s.tasks = pre ++ t :: post →
      (∀ u ∈ pre, u.id ≠ some i) → t.id = some i →
      toggle_task s i =
        (true, { s with
          tasks := pre ++ { t with done := some (!(t.done.getD false)) } :: post })) := by
  refine ⟨toggleList_fst_true_iff i s.tasks, ?_, ?_⟩
  · intro h
    have h' : (toggleList i s.tasks).1 = false := h
    have h2 := toggleList_snd_of_fst_false i s.tasks h'
    show ((toggleList i s.tasks).1, { s with tasks := (toggleList i s.tasks).2 }) = (false, s)
    rw [h', h2]
  · intro pre t post hs hpre hid
    have h1 := toggleList_first_match i pre t post hpre hid
    show ((toggleList i s.tasks).1, { s with tasks := (toggleList i s.tasks).2 }) = _
    rw [hs, h1]

/-- C7 witness: toggling the id of a concrete pending task flips exactly
that task's `done` flag; toggling a missing id leaves the state
unchanged. -/
theorem C7_toggle_task_spec_witness :
    toggle_task stMixed "b".toList =
      (true, ⟨[tDoneA, { tPendB with done := some true }, tPendC], 0⟩) ∧
    toggle_task stMixed "zz".toList = (false, stMixed) :=
  ⟨(C7_toggle_task_spec stMixed "b".toList).2.2 [tDoneA] tPendB [tPendC]
      rfl (by decide) (by decide),
   (C7_toggle_task_spec stMixed "zz".toList).2.1 (by decide)⟩

/-- C10: toggling a task whose record lacks the `done` key reports true
and sets `done` to `True` (an absent `done` is treated as false). -/
theorem C10_toggle_absent_done (s : State) (i : Str) (pre : List Task)
    (t : Task) (post : List Task) (hs : s.tasks = pre ++ t :: post)
    (hpre : ∀ u ∈ pre, u.id ≠ some i) (hid : t.id = some i)
    (hdone : t.done = none) :
    (toggle_task s i).1 = true ∧
    (toggle_task s i).2.tasks = pre ++ { t with done := some true } :: post := by
  have h1 := toggleList_first_match i pre t post hpre hid
  rw [hdone] at h1
  constructor
  · show (toggleList i s.tasks).1 = true
    rw [hs, h1]
  · show (toggleList i s.tasks).2 = _
    rw [hs, h1]
    rfl

/-- C10 witness: toggling the concrete task `tPendC`, whose `done` key is
absent, reports true and stores `done = some true`. -/
theorem C10_toggle_absent_done_witness :
    (toggle_task ⟨[tPendC], 0⟩ "c".toList).1 = true ∧
    (toggle_task ⟨[tPendC], 0⟩ "c".toList).2.tasks =
      [{ tPendC with done := some true }] :=
  C10_toggle_absent_done ⟨[tPendC], 0⟩ "c".toList [] tPendC [] rfl
    (by decide) (by decide) (by decide)

/-- C1 counterexample: on a nonempty all-done collection the display
pool (`next_display_pool`) is nonempty, yet `get_display_task` returns
none — it never draws from the full-collection fallback, contrary to the
claim. -/
theorem C1_counterexample :
    next_display_pool stAllDone ≠ [] ∧ get_display_task stAllDone 0 = none := by
  decide

/-- C1 (amended): `get_display_task` returns none iff the *pending* pool
is empty, and otherwise returns the task at index
`floor(t / ROTATION_INTERVAL) mod poolSize` of the sorted *pending*
tasks; in particular, for a nonempty collection in which every task is
done it returns none rather than drawing from the full collection. -/
theorem C1_current_task_selection (s : State) (t : Nat) :
    (get_display_task s t = none ↔ pending_tasks s = []) ∧
    (pending_tasks s ≠ [] →
      get_display_task s t =
        (sorted_tasks (pending_tasks s))[(t / ROTATION_INTERVAL) %
          (sorted_tasks (pending_tasks s)).length]?) := by
  refine ⟨get_display_task_eq_none_iff s t, fun hne => ?_⟩
  refine get_display_task_eq_getElem s t (fun hh => hne ?_)
  rw [List.length_eq_zero, sorted_tasks_eq_nil_iff] at hh
  exact hh

/-- C1 witness: on a concrete state with two pending tasks, at `t = 2`
the selected task is the second of the sorted pending pool. -/
theorem C1_current_task_selection_witness :
    get_display_task stMixed 2 = some tPendB :=
  ((C1_current_task_selection stMixed 2).2 (by decide)).trans (by decide)

/-- C5: for a fixed state, `get_display_task` is a pure function of the
time `t`, at `t` it selects index `floor(t / ROTATION_INTERVAL) mod
poolSize`, and at `t + ROTATION_INTERVAL` it selects the index one
greater (mod pool size). -/
theorem C5_rotation_advances (s : State) (t : Nat)
    (h : sorted_tasks (pending_tasks s) ≠ []) :
    get_display_task s t = get_display_task s t ∧
    get_display_task s t =
      (sorted_tasks (pending_tasks s))[(t / ROTATION_INTERVAL) %
        (sorted_tasks (pending_tasks s)).length]? ∧
    get_display_task s (t + ROTATION_INTERVAL) =
      (sorted_tasks (pending_tasks s))[((t / ROTATION_INTERVAL) %
        (sorted_tasks (pending_tasks s)).length + 1) %
        (sorted_tasks (pending_tasks s)).length]? := by
  have hlen : (sorted_tasks (pending_tasks s)).length ≠ 0 :=
    fun hh => h (List.length_eq_zero.mp hh)
  refine ⟨rfl, get_display_task_eq_getElem s t hlen, ?_⟩
  rw [get_display_task_eq_getElem s (t + ROTATION_INTERVAL) hlen]
  have hdiv : (t + ROTATION_INTERVAL) / ROTATION_INTERVAL =
      t / ROTATION_INTERVAL + 1 :=
    Nat.add_div_right t (by decide)
  rw [hdiv, Nat.mod_add_mod]

/-- C5 witness: on a concrete two-task pool, advancing the time from 0
by `ROTATION_INTERVAL` moves the selection from index 0 to index 1. -/
theorem C5_rotation_advances_witness :
    get_display_task stMixed (0 + ROTATION_INTERVAL) =
      (sorted_tasks (pending_tasks stMixed))[((0 / ROTATION_INTERVAL) %
        (sorted_tasks (pending_tasks stMixed)).length + 1) %
        (sorted_tasks (pending_tasks stMixed)).length]? :=
  (C5_rotation_advances stMixed 0 (by decide)).2.2

/-- C9: whenever `get_display_task` returns a task, that task belongs to
the collection and is pending (`done` defaults to false); when no
pending task exists it returns none, even if the collection is
nonempty. -/
theorem C9_display_task_is_pending (s : State) (now : Nat) :
    (∀ task, get_display_task s now = some task →
      task ∈ s.tasks ∧ task.done.getD false = false) ∧
    (pending_tasks s = [] → get_display_task s now = none) := by
  constructor
  · intro task h
    simp only [get_display_task] at h
    by_cases h0 : (sorted_tasks (pending_tasks s)).length = 0
    · rw [dif_pos h0] at h
      exact absurd h (by simp)
    · rw [dif_neg h0] at h
      injection h with h'
      have hmem : task ∈ sorted_tasks (pending_tasks s) := h' ▸ List.get_mem _ _ _
      rw [mem_sorted_tasks] at hmem
      unfold pending_tasks at hmem
      rw [List.mem_filter] at hmem
      refine ⟨hmem.1, ?_⟩
      have := hmem.2
      simpa using this
  · exact fun h => (get_display_task_eq_none_iff s now).mpr h

/-- C9 witness: on a concrete mixed state the selected task is pending,
and on a concrete nonempty all-done state nothing is selected. -/
theorem C9_display_task_is_pending_witness :
    (tPendC ∈ stMixed.tasks ∧ tPendC.done.getD false = false) ∧
    get_display_task stAllDone 7 = none :=
  ⟨(C9_display_task_is_pending stMixed 0).1 tPendC (by decide),
   (C9_display_task_is_pending stAllDone 7).2 (by decide)⟩

/-- C2 counterexample: `add_task` with the whitespace-only title `"  "`
is not a no-op — the collection grows from 0 to 1 tasks (with an empty
stored title) even though the stripped title is empty. -/
theorem C2_counterexample :
    pyStrip "  ".toList = [] ∧
    (add_task ⟨[], 0⟩ "  ".toList 2 "newid12345".toList
      "2024-01-05".toList).tasks.length = 1 := by
  decide

/-- C2 (amended): `add_task` never rejects a title — for every title,
including those whose stripped form is empty, it appends exactly one new
task with the stripped title and `done = false`, leaving `show_index`
unchanged; it returns no changed flag (its callers decide that). -/
theorem C2_add_task_always_appends (s : State) (title : Str) (p : Int)
    (nid c : Str) :
    (add_task s title p nid c).tasks.length = s.tasks.length + 1 ∧
    (add_task s title p nid c).tasks.getLast? =
      some ⟨some nid, some (pyStrip title), some (max 1 (min p 5)),
        some false, some c⟩ ∧
    (add_task s title p nid c).show_index = s.show_index := by
  refine ⟨?_, ?_, rfl⟩
  · simp [add_task]
  · simp [add_task, List.getLast?_concat]

/-- C8: the priority stored by `add_task` is `max 1 (min p 5)`, which
lies in `[1, 5]`, is the identity on in-range priorities, and maps 7 to
5 and -3 to 1. -/
theorem C8_priority_clamped (s : State) (title : Str) (p : Int)
    (nid c : Str) :
    ((add_task s title p nid c).tasks.getLast?.map Task.priority =
      some (some (max 1 (min p 5)))) ∧
    1 ≤ max 1 (min p 5) ∧ max 1 (min p 5) ≤ 5 ∧
    (1 ≤ p → p ≤ 5 → max 1 (min p 5) = p) ∧
    max 1 (min (7 : Int) 5) = 5 ∧ max 1 (min (-3 : Int) 5) = 1 := by
  refine ⟨?_, ?_, ?_, ?_, by decide, by decide⟩
  · simp [add_task, List.getLast?_concat]
  · omega
  · omega
  · omega

/-- C8 witness: adding a task with the in-range priority 3 stores
priority 3. -/
theorem C8_priority_clamped_witness :
    ((add_task ⟨[], 0⟩ "x".toList 3 "i1".toList "c1".toList).tasks.getLast?.map
      Task.priority = some (some 3)) ∧ max 1 (min (3 : Int) 5) = 3 :=
  ⟨(C8_priority_clamped ⟨[], 0⟩ "x".toList 3 "i1".toList "c1".toList).1.trans
      (by decide),
   (C8_priority_clamped ⟨[], 0⟩ "x".toList 3 "i1".toList "c1".toList).2.2.2.1
      (by decide) (by decide)⟩

/-- C6: when the backing file exists but its content fails to parse (or
is not a dict), `load_state` renames it by appending `.bak` to its
existing extension, returns the default state (the two seed tasks,
`show_index = 0`) and persists it, raising nothing; when no backing file
exists it likewise constructs, persists and returns the default
state. -/
theorem C6_load_state_recovery (now₁ now₂ : Str) (fs : FileSys) (raw : Raw)
    (h1 : fs.read DATA_FILE = some raw) (h2 : parseState raw = none) :
    BACKUP_FILE = DATA_FILE ++ ".bak".toList ∧
    (load_state now₁ now₂ fs).1 = defaultState now₁ now₂ ∧
    (load_state now₁ now₂ fs).2.read BACKUP_FILE = some raw ∧
    (load_state now₁ now₂ fs).2.read DATA_FILE =
      some (serializeState (defaultState now₁ now₂)) ∧
    (∀ fs₀ : FileSys, fs₀.read DATA_FILE = none →
      (load_state now₁ now₂ fs₀).1 = defaultState now₁ now₂ ∧
      (load_state now₁ now₂ fs₀).2.read DATA_FILE =
        some (serializeState (defaultState now₁ now₂))) := by
  have hBD : ¬ (BACKUP_FILE = DATA_FILE) := by decide
  have hBT : ¬ (BACKUP_FILE = TMP_FILE) := by decide
  have hload : load_state now₁ now₂ fs =
      (defaultState now₁ now₂,
        save_state (fs.rename DATA_FILE BACKUP_FILE)
          (defaultState now₁ now₂)) := by
    simp only [load_state, h1, h2]
  refine ⟨by decide, by rw [hload], ?_, ?_, ?_⟩
  · rw [hload]
    simp only [FileSys.read] at h1
    simp [save_state, FileSys.read, FileSys.rename, FileSys.write,
      hBD, hBT, h1]
  · rw [hload]
    simp [save_state, FileSys.read, FileSys.rename, FileSys.write]
  · intro fs₀ h0
    have hl : load_state now₁ now₂ fs₀ =
        (defaultState now₁ now₂,
          save_state fs₀ (defaultState now₁ now₂)) := by
      simp only [load_state, h0]
    refine ⟨by rw [hl], ?_⟩
    rw [hl]
    simp [save_state, FileSys.read, FileSys.rename, FileSys.write]

/-- C6 witness: loading a concrete filesystem whose data file holds
unparseable text yields the default state and leaves the corrupt content
at `tasks.json.bak`. -/
theorem C6_load_state_recovery_witness :
    (load_state "t1".toList "t2".toList fsCorrupt).1 =
      defaultState "t1".toList "t2".toList ∧
    (load_state "t1".toList "t2".toList fsCorrupt).2.read BACKUP_FILE =
      some Raw.malformed :=
  ⟨(C6_load_state_recovery "t1".toList "t2".toList fsCorrupt Raw.malformed
      (by decide) (by decide)).2.1,
   (C6_load_state_recovery "t1".toList "t2".toList fsCorrupt Raw.malformed
      (by decide) (by decide)).2.2.1⟩

end WaybarTodo
